import Mathlib

/-!
Verification of the kyber_watch pools monitor (`PoolsMonitorService`).

The development shallowly embeds the service's pure logic:
* `matches` — the threshold filter (`PoolsMonitorService.matches`);
* `cooldownKeep` / `applyCooldown` — the cooldown engine
  (`PoolsMonitorService.applyCooldown`);
* `loadEntry` / `loadSnapshot` / `loadNotifiedState` — snapshot loading with
  legacy upgrade (`PoolsMonitorService.loadNotifiedState`);
* `persistSnapshot` — snapshot serialisation
  (`PoolsMonitorService.persistNotifiedState`);
* `runOnce` — one poll cycle (`PoolsMonitorService.runOnce`), with the
  outcomes of the external fetch and webhook calls supplied as parameters.

JavaScript numbers are embedded as rationals (`ℚ`); where NaN behaviour
matters (the threshold filter and snapshot validation) the embedding uses
`JSNum`, a rational extended with a NaN element whose comparisons are
always false, mirroring IEEE comparison semantics.
-/

namespace KyberWatch

/-- Models JavaScript `String.prototype.toLowerCase` (restricted to the ASCII
range, which covers the hex pool addresses the service handles): lowercases
every character. -/
def lowercase (s : String) : String := ⟨s.data.map Char.toLower⟩

/-- A JavaScript number: either NaN or a finite value embedded as a rational.
`Number.isFinite` holds exactly on the `num` constructor. -/
inductive JSNum where
  | nan : JSNum
  | num (val : ℚ) : JSNum
deriving DecidableEq

/-- JavaScript `>=` on numbers: any comparison involving NaN is false. -/
def JSNum.jsGe : JSNum → JSNum → Bool
  | .num a, .num b => decide (b ≤ a)
  | _, _ => false

/-- One token of a pool, from `pools.types.ts` (`PoolToken`). -/
structure PoolToken where
  address : String
  symbol : String
  logoURI : String
deriving DecidableEq

/-- Chain descriptor, from `pools.types.ts` (`PoolChain`). -/
structure PoolChain where
  id : ℤ
  name : String
  logoUrl : String
deriving DecidableEq

/-- A pool entity, from `pools.types.ts` (`Pool`); numeric metrics embedded
as rationals. -/
structure Pool where
  address : String
  earnFee : ℚ
  egUsd : ℚ
  exchange : String
  feeTier : ℚ
  volume : ℚ
  liquidity : ℚ
  tvl : ℚ
  apr : ℚ
  allApr : ℚ
  lpApr : ℚ
  kemApr : ℚ
  tokens : List PoolToken
  chain : PoolChain
deriving DecidableEq

/-- The service configuration (`MonitorConfig` in the source), resolved once
at startup. -/
structure MonitorConfig where
  apiBaseUrl : String
  chainIds : String
  pages : ℚ
  limit : ℚ
  minApr : ℚ
  minEarnFee : ℚ
  minVolume : ℚ
  larkWebhookUrl : String
  notifyCooldownMs : ℚ
  notifyStorePath : String
deriving DecidableEq

/-- The growth ratio for re-notification
(`PoolsMonitorService.volumeGrowthRatioForRenotify = 0.2`). -/
def volumeGrowthRatioForRenotify : ℚ := 0.2

/-- Per-key notification record (`NotifyState` in the source). -/
structure NotifyState where
  notifiedAt : ℚ
  volume : ℚ
deriving DecidableEq

/-- The in-memory notify-state map (`Map<string, NotifyState>` in the
source), embedded as an insertion-ordered association list: lookups take the
first (and, by the map invariant, only) binding of a key. -/
abbrev NotifyMap := List (String × NotifyState)

/-- `Map.get`: the binding of `key`, if any. -/
def NotifyMap.get : NotifyMap → String → Option NotifyState
  | [], _ => none
  | (k, v) :: rest, key => if k = key then some v else NotifyMap.get rest key

/-- `Map.set`: upsert, replacing an existing binding in place or appending a
new one, as a JavaScript `Map` does. -/
def NotifyMap.set : NotifyMap → String → NotifyState → NotifyMap
  | [], key, value => [(key, value)]
  | (k, v) :: rest, key, value =>
    if k = key then (key, value) :: rest
    else (k, v) :: NotifyMap.set rest key value

/-- The keys of the map, in insertion order. -/
def NotifyMap.keys (m : NotifyMap) : List String := m.map Prod.fst

/-- The threshold filter `PoolsMonitorService.matches`: `pool.apr >= minApr
&& pool.earnFee >= minEarnFee && pool.volume >= minVolume`. -/
def «matches» (config : MonitorConfig) (pool : Pool) : Bool :=
  decide (pool.apr ≥ config.minApr) &&
  decide (pool.earnFee ≥ config.minEarnFee) &&
  decide (pool.volume ≥ config.minVolume)

/-- The threshold filter at the fidelity of JavaScript numbers: the three
metrics and the three minima it reads, with NaN representable. Fields the
predicate does not read are omitted. -/
structure PoolJS where
  address : String
  apr : JSNum
  earnFee : JSNum
  volume : JSNum
deriving DecidableEq

/-- The three configured minima read by the threshold filter, with NaN
representable. -/
structure ThresholdsJS where
  minApr : JSNum
  minEarnFee : JSNum
  minVolume : JSNum
deriving DecidableEq

/-- `PoolsMonitorService.matches` over JavaScript-number semantics: each
`>=` is false whenever either operand is NaN. -/
def matchesJS (config : ThresholdsJS) (pool : PoolJS) : Bool :=
  pool.apr.jsGe config.minApr &&
  pool.earnFee.jsGe config.minEarnFee &&
  pool.volume.jsGe config.minVolume

/-- The per-pool decision of `PoolsMonitorService.applyCooldown`: keep the
pool if its key has no prior record; else if its volume reached
`max(priorVolume, 0) * (1 + growthRatio)`; else, with a positive cooldown,
if the cooldown has elapsed. -/
def cooldownKeep (config : MonitorConfig) (st : NotifyMap) (now : ℚ)
    (pool : Pool) : Bool :=
  match NotifyMap.get st (lowercase pool.address) with
  | none => true
  | some state =>
    let volumeGrowthBase := max state.volume 0
    let volumeIncreaseThreshold :=
      volumeGrowthBase * (1 + volumeGrowthRatioForRenotify)
    if volumeIncreaseThreshold ≤ pool.volume then true
    else if config.notifyCooldownMs ≤ 0 then false
    else decide (now - state.notifiedAt ≥ config.notifyCooldownMs)

/-- `PoolsMonitorService.applyCooldown`: filter the batch by `cooldownKeep`,
preserving order. -/
def applyCooldown (config : MonitorConfig) (st : NotifyMap) (now : ℚ)
    (pools : List Pool) : List Pool :=
  pools.filter (cooldownKeep config st now)

/-- One persisted snapshot value: a bare number (legacy), an object with
optional `notifiedAt` / `volume` fields, or any other JSON value (null,
string, ...), which the loader skips. -/
inductive StoredValue where
  | numV (val : JSNum)
  | objV (notifiedAt : Option JSNum) (volume : Option JSNum)
  | otherV
deriving DecidableEq

/-- Whether the loader accepts a snapshot value: a finite bare number, or an
object whose `notifiedAt` and `volume` are both finite numbers. -/
def validStoredValue : StoredValue → Bool
  | .numV (.num _) => true
  | .objV (some (.num _)) (some (.num _)) => true
  | _ => false

/-- The loop body of `PoolsMonitorService.loadNotifiedState` for one
snapshot entry: a finite bare number is upgraded to
`{notifiedAt := value, volume := 0}` under the lowercased key; an object
with finite `notifiedAt` and `volume` is stored under the lowercased key;
anything else is skipped. -/
def loadEntry (m : NotifyMap) (address : String) (value : StoredValue) :
    NotifyMap :=
  match value with
  | .numV (.num q) => NotifyMap.set m (lowercase address) ⟨q, 0⟩
  | .numV .nan => m
  | .objV (some (.num n)) (some (.num v)) =>
      NotifyMap.set m (lowercase address) ⟨n, v⟩
  | .objV _ _ => m
  | .otherV => m

/-- The entry loop of `PoolsMonitorService.loadNotifiedState` over a parsed
snapshot, folded into the current map. -/
def loadSnapshot (entries : List (String × StoredValue)) (m : NotifyMap) :
    NotifyMap :=
  entries.foldl (fun acc e => loadEntry acc e.1 e.2) m

/-- `PoolsMonitorService.loadNotifiedState`: a missing snapshot file
(`ENOENT`, modelled as `none`) leaves the map untouched; otherwise the
parsed entries are folded in. -/
def loadNotifiedState (file : Option (List (String × StoredValue)))
    (m : NotifyMap) : NotifyMap :=
  match file with
  | none => m
  | some entries => loadSnapshot entries m

/-- `PoolsMonitorService.persistNotifiedState`: the serialised snapshot is
`Object.fromEntries(notifyState)` — each in-memory record written as an
object value under its key. -/
def persistSnapshot (m : NotifyMap) : List (String × StoredValue) :=
  m.map (fun e =>
    (e.1, StoredValue.objV (some (.num e.2.notifiedAt))
      (some (.num e.2.volume))))

/-- The state-update loop of `PoolsMonitorService.runOnce` after a
notification: each batch pool's lowercased address is upserted with the
current time and the pool's volume. -/
def updateNotifyState (m : NotifyMap) (pools : List Pool) (now : ℚ) :
    NotifyMap :=
  pools.foldl
    (fun acc pool => NotifyMap.set acc (lowercase pool.address)
      ⟨now, pool.volume⟩) m

/-- Outcome of `PoolsMonitorService.notifyLark`: the POST succeeded, the
call was skipped for lack of a webhook URL, or the POST got a non-ok
response (which the source turns into a thrown error). -/
inductive NotifyOutcome where
  | sent
  | skipped
  | failed
deriving DecidableEq

/-- `PoolsMonitorService.notifyLark`: with an empty `larkWebhookUrl` the
call logs a warning and returns (a no-op skip); otherwise it POSTs and
fails exactly when the response is not ok (`webhookOk = false`). -/
def notifyLark (config : MonitorConfig) (webhookOk : Bool) : NotifyOutcome :=
  if config.larkWebhookUrl = "" then .skipped
  else if webhookOk then .sent else .failed

/-- Observable outcome of one `runOnce` invocation: the notify-state map it
leaves behind, which external effects it performed, whether it caught an
error, and the `running` flag it leaves behind. -/
structure CycleResult where
  state : NotifyMap
  didFetch : Bool
  didNotify : Bool
  notifySkipped : Bool
  didPersist : Bool
  errored : Bool
  runningAfter : Bool
deriving DecidableEq

/-- `PoolsMonitorService.runOnce`, with the outcomes of the external calls
supplied: `running` is the guard flag at entry, `fetchResult` is `none`
when the paginated fetch throws, `webhookOk` is the ok-ness of the webhook
response, `now` is the clock at cooldown evaluation and `notifyTime` the
clock read for the post-notify state update. A tick that finds the guard
set returns at once, leaving the flag to the run that owns it; every real
cycle resets the flag in its `finally`. Errors are caught at the cycle
boundary (`errored`), never escaping. -/
def runOnce (config : MonitorConfig) (running : Bool)
    (fetchResult : Option (List Pool)) (webhookOk : Bool)
    (st : NotifyMap) (now notifyTime : ℚ) : CycleResult :=
  if running then
    { state := st, didFetch := false, didNotify := false,
      notifySkipped := false, didPersist := false, errored := false,
      runningAfter := true }
  else
    match fetchResult with
    | none =>
      { state := st, didFetch := true, didNotify := false,
        notifySkipped := false, didPersist := false, errored := true,
        runningAfter := false }
    | some pools =>
      let filtered := pools.filter («matches» config)
      let deduped := applyCooldown config st now filtered
      if deduped.isEmpty then
        { state := st, didFetch := true, didNotify := false,
          notifySkipped := false, didPersist := false, errored := false,
          runningAfter := false }
      else
        match notifyLark config webhookOk with
        | .failed =>
          { state := st, didFetch := true, didNotify := false,
            notifySkipped := false, didPersist := false, errored := true,
            runningAfter := false }
        | .sent =>
          { state := updateNotifyState st deduped notifyTime,
            didFetch := true, didNotify := true, notifySkipped := false,
            didPersist := true, errored := false, runningAfter := false }
        | .skipped =>
          { state := updateNotifyState st deduped notifyTime,
            didFetch := true, didNotify := false, notifySkipped := true,
            didPersist := true, errored := false, runningAfter := false }

/-- A write to the notify-state map, as performed by the service: loading a
snapshot file, or the per-pool upsert performed after a notification. -/
inductive StoreOp where
  | load (file : Option (List (String × StoredValue)))
  | upsert (address : String) (record : NotifyState)

/-- Apply one store write. -/
def applyStoreOp (m : NotifyMap) : StoreOp → NotifyMap
  | .load file => loadNotifiedState file m
  | .upsert address record => NotifyMap.set m (lowercase address) record

/-- Apply a sequence of store writes, oldest first. -/
def applyStoreOps (ops : List StoreOp) (m : NotifyMap) : NotifyMap :=
  ops.foldl applyStoreOp m

/-- Every key of the map is fixed by normalisation (is already lowercase). -/
def KeysLower (m : NotifyMap) : Prop :=
  ∀ k ∈ NotifyMap.keys m, lowercase k = k

/-- A sample configuration with the source's default thresholds
(`minApr = 3000`, `minEarnFee = 1000`, `minVolume = 100000`, one-day
cooldown) and a configured webhook. -/
def sampleConfig : MonitorConfig :=
  { apiBaseUrl := "https://earn-service.kyberswap.com/api/v1/explorer/pools"
    chainIds := "8453,56"
    pages := 5
    limit := 10
    minApr := 3000
    minEarnFee := 1000
    minVolume := 100000
    larkWebhookUrl := "https://open.larksuite.com/hook"
    notifyCooldownMs := 86400000
    notifyStorePath := "data/pool-notify.json" }

/-- The sample configuration with the webhook target missing. -/
def sampleConfigNoWebhook : MonitorConfig :=
  { sampleConfig with larkWebhookUrl := "" }

/-- A sample pool passing the sample configuration's thresholds. -/
def samplePool : Pool :=
  { address := "0xAB"
    earnFee := 2000
    egUsd := 0
    exchange := "uniswapv3"
    feeTier := 500
    volume := 150000
    liquidity := 0
    tvl := 50000
    apr := 4000
    allApr := 4000
    lpApr := 0
    kemApr := 0
    tokens := []
    chain := { id := 8453, name := "Base", logoUrl := "" } }

theorem char_toNat_ofNat (n : ℕ) (h : n.isValidChar) :
    (Char.ofNat n).toNat = n := by
  rw [Char.ofNat, dif_pos h]
  rfl

theorem char_toLower_toLower (c : Char) : c.toLower.toLower = c.toLower := by
  unfold Char.toLower
  by_cases h : c.toNat ≥ 65 ∧ c.toNat ≤ 90
  · rw [if_pos h]
    have hv : (c.toNat + 32).isValidChar := by
      left
      omega
    have ht : (Char.ofNat (c.toNat + 32)).toNat = c.toNat + 32 :=
      char_toNat_ofNat _ hv
    rw [if_neg]
    rw [ht]
    omega
  · rw [if_neg h, if_neg h]

theorem map_toLower_idem (l : List Char) :
    (l.map Char.toLower).map Char.toLower = l.map Char.toLower := by
  induction l with
  | nil => rfl
  | cons c cs ih => simp [char_toLower_toLower, ih]

theorem lowercase_lowercase (s : String) :
    lowercase (lowercase s) = lowercase s :=
  congrArg String.mk (map_toLower_idem s.data)

theorem keys_set (m : NotifyMap) (key : String) (value : NotifyState) :
    NotifyMap.keys (NotifyMap.set m key value) =
      if key ∈ NotifyMap.keys m then NotifyMap.keys m
      else NotifyMap.keys m ++ [key] := by
  induction m with
  | nil => simp [NotifyMap.set, NotifyMap.keys]
  | cons e rest ih =>
    obtain ⟨k, v⟩ := e
    by_cases hk : k = key
    · subst hk
      simp [NotifyMap.set, NotifyMap.keys]
    · have hne : ¬key = k := fun h => hk h.symm
      simp only [NotifyMap.set, if_neg hk, NotifyMap.keys, List.map_cons] at ih ⊢
      rw [ih]
      by_cases hmem : key ∈ List.map Prod.fst rest
      · simp [hmem, hne]
      · simp [hmem, hne]

theorem set_eq_append (m : NotifyMap) (key : String) (value : NotifyState)
    (h : key ∉ NotifyMap.keys m) :
    NotifyMap.set m key value = m ++ [(key, value)] := by
  induction m with
  | nil => rfl
  | cons e rest ih =>
    obtain ⟨k, v⟩ := e
    have hk : ¬k = key := by
      intro hkey
      exact h (by simp [NotifyMap.keys, hkey])
    have hrest : key ∉ NotifyMap.keys rest := by
      intro hr
      exact h (by simp [NotifyMap.keys] at hr ⊢; exact Or.inr hr)
    simp [NotifyMap.set, hk, ih hrest]

theorem nodup_keys_set (m : NotifyMap) (key : String) (value : NotifyState)
    (h : (NotifyMap.keys m).Nodup) :
    (NotifyMap.keys (NotifyMap.set m key value)).Nodup := by
  rw [keys_set]
  by_cases hmem : key ∈ NotifyMap.keys m
  · simpa [hmem] using h
  · simp [hmem, List.nodup_append, h]

theorem keysLower_set (m : NotifyMap) (key : String) (value : NotifyState)
    (hm : KeysLower m) (hkey : lowercase key = key) :
    KeysLower (NotifyMap.set m key value) := by
  intro k hk
  rw [keys_set] at hk
  by_cases hmem : key ∈ NotifyMap.keys m
  · exact hm k (by simpa [hmem] using hk)
  · rw [if_neg hmem] at hk
    rcases List.mem_append.1 hk with h | h
    · exact hm k h
    · simp at h
      subst h
      exact hkey

theorem keysLower_loadEntry (m : NotifyMap) (address : String)
    (value : StoredValue) (hm : KeysLower m) :
    KeysLower (loadEntry m address value) := by
  cases value with
  | numV val =>
    cases val with
    | nan => exact hm
    | num q => exact keysLower_set _ _ _ hm (lowercase_lowercase _)
  | objV a b =>
    rcases a with _ | x
    · exact hm
    · rcases x with _ | n
      · exact hm
      · rcases b with _ | y
        · exact hm
        · rcases y with _ | v
          · exact hm
          · exact keysLower_set _ _ _ hm (lowercase_lowercase _)
  | otherV => exact hm

theorem nodup_keys_loadEntry (m : NotifyMap) (address : String)
    (value : StoredValue) (hm : (NotifyMap.keys m).Nodup) :
    (NotifyMap.keys (loadEntry m address value)).Nodup := by
  cases value with
  | numV val =>
    cases val with
    | nan => exact hm
    | num q => exact nodup_keys_set _ _ _ hm
  | objV a b =>
    rcases a with _ | x
    · exact hm
    · rcases x with _ | n
      · exact hm
      · rcases b with _ | y
        · exact hm
        · rcases y with _ | v
          · exact hm
          · exact nodup_keys_set _ _ _ hm
  | otherV => exact hm

theorem keysLower_loadSnapshot (entries : List (String × StoredValue))
    (m : NotifyMap) (hm : KeysLower m) (hnd : (NotifyMap.keys m).Nodup) :
    KeysLower (loadSnapshot entries m) ∧
      (NotifyMap.keys (loadSnapshot entries m)).Nodup := by
  induction entries generalizing m with
  | nil => exact ⟨hm, hnd⟩
  | cons e rest ih =>
    exact ih (loadEntry m e.1 e.2)
      (keysLower_loadEntry m e.1 e.2 hm)
      (nodup_keys_loadEntry m e.1 e.2 hnd)

theorem keysLower_applyStoreOp (m : NotifyMap) (op : StoreOp)
    (hm : KeysLower m) (hnd : (NotifyMap.keys m).Nodup) :
    KeysLower (applyStoreOp m op) ∧
      (NotifyMap.keys (applyStoreOp m op)).Nodup := by
  cases op with
  | load file =>
    cases file with
    | none => exact ⟨hm, hnd⟩
    | some entries => exact keysLower_loadSnapshot entries m hm hnd
  | upsert address record =>
    exact ⟨keysLower_set _ _ _ hm (lowercase_lowercase _),
      nodup_keys_set _ _ _ hnd⟩

theorem keysLower_applyStoreOps (ops : List StoreOp) (m : NotifyMap)
    (hm : KeysLower m) (hnd : (NotifyMap.keys m).Nodup) :
    KeysLower (applyStoreOps ops m) ∧
      (NotifyMap.keys (applyStoreOps ops m)).Nodup := by
  induction ops generalizing m with
  | nil => exact ⟨hm, hnd⟩
  | cons op rest ih =>
    exact ih (applyStoreOp m op)
      (keysLower_applyStoreOp m op hm hnd).1
      (keysLower_applyStoreOp m op hm hnd).2

theorem loadSnapshot_persistSnapshot (m : NotifyMap) (acc : NotifyMap)
    (hlow : KeysLower m) (hnodup : (NotifyMap.keys m).Nodup)
    (hdisj : ∀ k ∈ NotifyMap.keys m, k ∉ NotifyMap.keys acc) :
    loadSnapshot (persistSnapshot m) acc = acc ++ m := by
  induction m generalizing acc with
  | nil => simp [persistSnapshot, loadSnapshot]
  | cons e rest ih =>
    obtain ⟨k, v⟩ := e
    have hnodup' : (k :: NotifyMap.keys rest).Nodup := hnodup
    have hknotrest : k ∉ NotifyMap.keys rest := (List.nodup_cons.mp hnodup').1
    have hrestnodup : (NotifyMap.keys rest).Nodup := (List.nodup_cons.mp hnodup').2
    have hk : lowercase k = k := hlow k (List.mem_cons_self k _)
    have hkacc : k ∉ NotifyMap.keys acc := hdisj k (List.mem_cons_self k _)
    have step : loadSnapshot (persistSnapshot ((k, v) :: rest)) acc =
        loadSnapshot (persistSnapshot rest) (acc ++ [(k, v)]) := by
      simp only [persistSnapshot, List.map_cons, loadSnapshot, List.foldl_cons,
        loadEntry, hk]
      rw [set_eq_append acc k _ hkacc]
    rw [step]
    rw [ih (acc ++ [(k, v)])
      (fun k' hk' => hlow k' (List.mem_cons_of_mem _ hk'))
      hrestnodup
      (by
        intro k' hk'
        have hne : k' ≠ k := fun h => hknotrest (h ▸ hk')
        have hnacc : k' ∉ NotifyMap.keys acc :=
          hdisj k' (List.mem_cons_of_mem _ hk')
        intro hmem
        have hmem' : k' ∈ NotifyMap.keys acc ++ [k] := by
          simpa [NotifyMap.keys] using hmem
        rcases List.mem_append.mp hmem' with h | h
        · exact hnacc h
        · exact hne (by simpa using h))]
    simp

/-- C5: persisting the in-memory notify-state map and loading the resulting
snapshot into an empty store reproduces the mapping exactly — the same
(lowercase) keys bound to the same `{notifiedAt, volume}` records. The two
hypotheses are the invariants the in-memory map always satisfies (claim C9):
keys are already lowercase and no key is bound twice; records are finite by
construction in the rational embedding. -/
theorem persist_load_roundtrip (m : NotifyMap) (hlow : KeysLower m)
    (hnodup : (NotifyMap.keys m).Nodup) :
    loadNotifiedState (some (persistSnapshot m)) [] = m := by
  have h := loadSnapshot_persistSnapshot m [] hlow hnodup
    (by intro k hk; simp [NotifyMap.keys])
  simpa [loadNotifiedState] using h

/-- C5 witness: the round trip at a concrete two-entry store. -/
theorem persist_load_roundtrip_witness :
    loadNotifiedState
        (some (persistSnapshot [("0xab", ⟨5, 7⟩), ("0xcd", ⟨9, 11⟩)])) [] =
      [("0xab", ⟨5, 7⟩), ("0xcd", ⟨9, 11⟩)] :=
  persist_load_roundtrip [("0xab", ⟨5, 7⟩), ("0xcd", ⟨9, 11⟩)]
    (by
      intro k hk
      simp [NotifyMap.keys] at hk
      rcases hk with rfl | rfl <;> decide)
    (by decide)

/-- C6: the loader upgrades every finite legacy bare-number entry to
`{notifiedAt := value, volume := 0}` under the lowercased key; any entry
that is neither a finite bare number nor an object with finite `notifiedAt`
and `volume` leaves the store untouched; and a missing snapshot file yields
an empty store. -/
theorem load_legacy_and_skip :
    (∀ (m : NotifyMap) (address : String) (q : ℚ),
        loadEntry m address (.numV (.num q)) =
          NotifyMap.set m (lowercase address) ⟨q, 0⟩) ∧
    (∀ (m : NotifyMap) (address : String) (value : StoredValue),
        validStoredValue value = false → loadEntry m address value = m) ∧
    loadNotifiedState none [] = [] := by
  refine ⟨fun m address q => rfl, ?_, rfl⟩
  intro m address value hv
  cases value with
  | numV val =>
    cases val with
    | nan => rfl
    | num q => simp [validStoredValue] at hv
  | objV a b =>
    rcases a with _ | x
    · rfl
    · rcases x with _ | n
      · rfl
      · rcases b with _ | y
        · rfl
        · rcases y with _ | v
          · rfl
          · simp [validStoredValue] at hv
  | otherV => rfl

/-- C6 witness: a malformed entry (a non-number, non-object value) is
skipped. -/
theorem load_legacy_and_skip_witness :
    loadEntry [] "0xAB" .otherV = [] :=
  load_legacy_and_skip.2.1 [] "0xAB" .otherV rfl

/-- C9: after any sequence of store writes the service performs (snapshot
loads and post-notification upserts) starting from the empty map, every key
of the map is lowercase, no key is bound twice, and the persisted snapshot
is keyed by exactly those lowercase keys. -/
theorem notifyState_key_invariant (ops : List StoreOp) :
    KeysLower (applyStoreOps ops []) ∧
    (NotifyMap.keys (applyStoreOps ops [])).Nodup ∧
    (persistSnapshot (applyStoreOps ops [])).map Prod.fst =
      NotifyMap.keys (applyStoreOps ops []) := by
  have h := keysLower_applyStoreOps ops []
    (by intro k hk; simp [NotifyMap.keys] at hk) (by simp [NotifyMap.keys])
  refine ⟨h.1, h.2, ?_⟩
  simp [persistSnapshot, NotifyMap.keys, List.map_map]

/-- C9 witness: the invariant at a concrete write sequence mixing an upsert
with a mixed-case address and a legacy snapshot load. -/
theorem notifyState_key_invariant_witness :
    KeysLower (applyStoreOps
        [.upsert "0xAB" ⟨1, 2⟩, .load (some [("0xCD", .numV (.num 3))])] []) ∧
    (NotifyMap.keys (applyStoreOps
        [.upsert "0xAB" ⟨1, 2⟩, .load (some [("0xCD", .numV (.num 3))])] [])).Nodup ∧
    (persistSnapshot (applyStoreOps
        [.upsert "0xAB" ⟨1, 2⟩, .load (some [("0xCD", .numV (.num 3))])] [])).map
        Prod.fst =
      NotifyMap.keys (applyStoreOps
        [.upsert "0xAB" ⟨1, 2⟩, .load (some [("0xCD", .numV (.num 3))])] []) :=
  notifyState_key_invariant
    [.upsert "0xAB" ⟨1, 2⟩, .load (some [("0xCD", .numV (.num 3))])]

/-- C1: a pool of the batch survives `applyCooldown` exactly when its
normalized key has no prior record, or its current volume reached
`max(priorVolume, 0) * (1 + 0.2)`, or the cooldown duration is positive and
has elapsed since the prior notification; in particular, below the growth
threshold with a non-positive cooldown the pool is excluded. -/
theorem applyCooldown_decision (config : MonitorConfig) (st : NotifyMap)
    (now : ℚ) (pools : List Pool) (pool : Pool) (hmem : pool ∈ pools) :
    pool ∈ applyCooldown config st now pools ↔
      (NotifyMap.get st (lowercase pool.address) = none ∨
        ∃ s, NotifyMap.get st (lowercase pool.address) = some s ∧
          (pool.volume ≥ max s.volume 0 * (1 + (0.2 : ℚ)) ∨
            (config.notifyCooldownMs > 0 ∧
              now - s.notifiedAt ≥ config.notifyCooldownMs))) := by
  rw [applyCooldown, List.mem_filter]
  simp only [hmem, true_and]
  cases hget : NotifyMap.get st (lowercase pool.address) with
  | none => simp [cooldownKeep, hget]
  | some s =>
    simp only [cooldownKeep, hget, reduceCtorEq, Option.some.injEq, false_or]
    have hratio : volumeGrowthRatioForRenotify = (0.2 : ℚ) := rfl
    constructor
    · intro h
      refine ⟨s, rfl, ?_⟩
      by_cases h1 : max s.volume 0 * (1 + volumeGrowthRatioForRenotify) ≤
          pool.volume
      · exact Or.inl (hratio ▸ h1)
      · rw [if_neg h1] at h
        by_cases h2 : config.notifyCooldownMs ≤ 0
        · rw [if_pos h2] at h
          exact absurd h (by simp)
        · rw [if_neg h2] at h
          exact Or.inr ⟨lt_of_not_le h2, of_decide_eq_true h⟩
    · rintro ⟨s', hs', h⟩
      subst hs'
      rcases h with h | ⟨hc, helapsed⟩
      · rw [if_pos (hratio ▸ h)]
      · by_cases h1 : max s.volume 0 * (1 + volumeGrowthRatioForRenotify) ≤
            pool.volume
        · rw [if_pos h1]
        · rw [if_neg h1, if_neg (not_le.mpr hc)]
          exact decide_eq_true helapsed

/-- C1 witness: a first-sighting pool (no prior record) is included. -/
theorem applyCooldown_decision_witness :
    samplePool ∈ applyCooldown sampleConfig [] 0 [samplePool] :=
  (applyCooldown_decision sampleConfig [] 0 [samplePool] samplePool
    (by decide)).mpr (Or.inl (by decide))

/-- C10: whenever the prior record for a pool's key has non-positive volume
(as every record upgraded from the legacy bare-number snapshot format does,
being stored with volume 0), the growth threshold is 0, so any pool with
non-negative current volume passes the cooldown engine regardless of the
cooldown duration or the elapsed time. -/
theorem legacy_zero_volume_renotified (config : MonitorConfig)
    (st : NotifyMap) (now : ℚ) (pools : List Pool) (pool : Pool)
    (s : NotifyState)
    (hget : NotifyMap.get st (lowercase pool.address) = some s)
    (hvol : s.volume ≤ 0) (hpos : 0 ≤ pool.volume) (hmem : pool ∈ pools) :
    pool ∈ applyCooldown config st now pools := by
  rw [applyCooldown, List.mem_filter]
  refine ⟨hmem, ?_⟩
  have hcond : max s.volume 0 * (1 + volumeGrowthRatioForRenotify) ≤
      pool.volume := by
    rw [max_eq_right hvol, zero_mul]
    exact hpos
  simp [cooldownKeep, hget, hcond]

/-- C10 witness: a pool whose prior record was upgraded from a legacy entry
(volume 0) is re-notified one hour after the prior notification, far inside
the one-day cooldown. -/
theorem legacy_zero_volume_renotified_witness :
    samplePool ∈
      applyCooldown sampleConfig [("0xab", ⟨0, 0⟩)] 3600000 [samplePool] :=
  legacy_zero_volume_renotified sampleConfig [("0xab", ⟨0, 0⟩)] 3600000
    [samplePool] samplePool ⟨0, 0⟩ (by decide) (by decide) (by decide)
    (by decide)

/-- C3: the threshold filter is the conjunction of the three `>=`
comparisons (stated over the rational embedding and, at JavaScript-number
fidelity, over finite values), it is a pure total function by construction,
and a NaN in any metric or minimum it reads makes it false. -/
theorem matches_threshold_spec :
    (∀ (config : MonitorConfig) (pool : Pool),
        «matches» config pool = true ↔
          (pool.apr ≥ config.minApr ∧ pool.earnFee ≥ config.minEarnFee ∧
            pool.volume ≥ config.minVolume)) ∧
    (∀ (config : ThresholdsJS) (pool : PoolJS) (a f v ma mf mv : ℚ),
        pool.apr = .num a → pool.earnFee = .num f → pool.volume = .num v →
        config.minApr = .num ma → config.minEarnFee = .num mf →
        config.minVolume = .num mv →
        (matchesJS config pool = true ↔ (a ≥ ma ∧ f ≥ mf ∧ v ≥ mv))) ∧
    (∀ (config : ThresholdsJS) (pool : PoolJS),
        pool.apr = .nan ∨ pool.earnFee = .nan ∨ pool.volume = .nan →
        matchesJS config pool = false) := by
  refine ⟨?_, ?_, ?_⟩
  · intro config pool
    simp [«matches», and_assoc]
  · intro config pool a f v ma mf mv ha hf hv hma hmf hmv
    simp [matchesJS, ha, hf, hv, hma, hmf, hmv, JSNum.jsGe, ge_iff_le,
      and_assoc]
  · intro config pool h
    rcases h with h | h | h <;>
      · rw [matchesJS, h]
        cases config.minApr <;> cases config.minEarnFee <;>
          cases config.minVolume <;>
          cases pool.apr <;> cases pool.earnFee <;> cases pool.volume <;>
          simp_all [JSNum.jsGe]

/-- C3 witness: a pool whose APR is NaN fails the filter even against zero
minima. -/
theorem matches_threshold_spec_witness :
    matchesJS ⟨.num 0, .num 0, .num 0⟩ ⟨"0xab", .nan, .num 1, .num 1⟩ =
      false :=
  matches_threshold_spec.2.2 ⟨.num 0, .num 0, .num 0⟩
    ⟨"0xab", .nan, .num 1, .num 1⟩ (Or.inl rfl)

theorem isEmpty_false_of_ne_nil {l : List Pool} (h : l ≠ []) :
    l.isEmpty = false := by
  cases l with
  | nil => exact absurd rfl h
  | cons a as => rfl

/-- C2 counterexample: a cycle with the webhook target missing and a
non-empty batch sends no notification (the notify step is a skip, not an
error), yet it creates the batch pool's record and persists the store —
refuting the claim that no record is created or updated in such a cycle. -/
theorem missing_webhook_records_anyway :
    (runOnce sampleConfigNoWebhook false (some [samplePool]) true []
        0 100).didNotify = false ∧
    (runOnce sampleConfigNoWebhook false (some [samplePool]) true []
        0 100).notifySkipped = true ∧
    (runOnce sampleConfigNoWebhook false (some [samplePool]) true []
        0 100).errored = false ∧
    (runOnce sampleConfigNoWebhook false (some [samplePool]) true []
        0 100).state = [("0xab", ⟨100, 150000⟩)] ∧
    (runOnce sampleConfigNoWebhook false (some [samplePool]) true []
        0 100).didPersist = true := by
  decide

/-- C2 as amended: when the webhook target is missing, the notify step of a
cycle with a non-empty batch is a no-op skip (no POST, no error) — but the
cycle still upserts a record for every batch pool and persists the store,
exactly as after a successful send; records are withheld only when the
notify step throws. -/
theorem missing_webhook_skip_still_updates (config : MonitorConfig)
    (pools : List Pool) (webhookOk : Bool) (st : NotifyMap)
    (now notifyTime : ℚ) (hurl : config.larkWebhookUrl = "")
    (hne : applyCooldown config st now (pools.filter («matches» config)) ≠ []) :
    (runOnce config false (some pools) webhookOk st now
        notifyTime).didNotify = false ∧
    (runOnce config false (some pools) webhookOk st now
        notifyTime).notifySkipped = true ∧
    (runOnce config false (some pools) webhookOk st now
        notifyTime).errored = false ∧
    (runOnce config false (some pools) webhookOk st now notifyTime).state =
      updateNotifyState st
        (applyCooldown config st now (pools.filter («matches» config)))
        notifyTime ∧
    (runOnce config false (some pools) webhookOk st now
        notifyTime).didPersist = true := by
  have hskip : notifyLark config webhookOk = .skipped := by
    simp [notifyLark, hurl]
  have hempty := isEmpty_false_of_ne_nil hne
  simp [runOnce, hskip, hempty]

/-- C2 witness: the amended behaviour at the counterexample's input. -/
theorem missing_webhook_skip_still_updates_witness :
    (runOnce sampleConfigNoWebhook false (some [samplePool]) true []
        0 100).didNotify = false ∧
    (runOnce sampleConfigNoWebhook false (some [samplePool]) true []
        0 100).notifySkipped = true ∧
    (runOnce sampleConfigNoWebhook false (some [samplePool]) true []
        0 100).errored = false ∧
    (runOnce sampleConfigNoWebhook false (some [samplePool]) true []
        0 100).state =
      updateNotifyState []
        (applyCooldown sampleConfigNoWebhook [] 0
          ([samplePool].filter («matches» sampleConfigNoWebhook))) 100 ∧
    (runOnce sampleConfigNoWebhook false (some [samplePool]) true []
        0 100).didPersist = true :=
  missing_webhook_skip_still_updates sampleConfigNoWebhook [samplePool]
    true [] 0 100 rfl (by decide)

/-- C4: if the webhook POST gets a non-ok response while a non-empty batch
is to be notified, the cycle errors out with the notify-state map exactly
as it was at cycle start and without persisting — the next cycle
re-evaluates from the prior state. -/
theorem notify_failure_aborts (config : MonitorConfig) (pools : List Pool)
    (st : NotifyMap) (now notifyTime : ℚ)
    (hurl : config.larkWebhookUrl ≠ "")
    (hne : applyCooldown config st now (pools.filter («matches» config)) ≠ []) :
    (runOnce config false (some pools) false st now notifyTime).state = st ∧
    (runOnce config false (some pools) false st now
        notifyTime).didPersist = false ∧
    (runOnce config false (some pools) false st now
        notifyTime).errored = true := by
  have hfail : notifyLark config false = .failed := by
    simp [notifyLark, hurl]
  have hempty := isEmpty_false_of_ne_nil hne
  simp [runOnce, hfail, hempty]

/-- C4 witness: the failed-webhook abort at a concrete non-empty batch. -/
theorem notify_failure_aborts_witness :
    (runOnce sampleConfig false (some [samplePool]) false [] 0
        100).state = [] ∧
    (runOnce sampleConfig false (some [samplePool]) false [] 0
        100).didPersist = false ∧
    (runOnce sampleConfig false (some [samplePool]) false [] 0
        100).errored = true :=
  notify_failure_aborts sampleConfig [samplePool] [] 0 100 (by decide)
    (by decide)

/-- C7: a tick that finds the running flag set performs no fetch, no
notification and no persist and leaves the map untouched; and every real
cycle — successful, empty, skipped or failed — leaves the running flag
cleared. -/
theorem single_flight_guard (config : MonitorConfig)
    (fetchResult : Option (List Pool)) (webhookOk : Bool) (st : NotifyMap)
    (now notifyTime : ℚ) :
    ((runOnce config true fetchResult webhookOk st now
        notifyTime).didFetch = false ∧
     (runOnce config true fetchResult webhookOk st now
        notifyTime).didNotify = false ∧
     (runOnce config true fetchResult webhookOk st now
        notifyTime).didPersist = false ∧
     (runOnce config true fetchResult webhookOk st now
        notifyTime).state = st) ∧
    (runOnce config false fetchResult webhookOk st now
        notifyTime).runningAfter = false := by
  constructor
  · simp [runOnce]
  · cases fetchResult with
    | none => simp [runOnce]
    | some pools =>
      by_cases h : (applyCooldown config st now
          (pools.filter («matches» config))).isEmpty = true
      · simp [runOnce, h]
      · rw [Bool.not_eq_true] at h
        cases hN : notifyLark config webhookOk <;> simp [runOnce, h, hN]

/-- C8: a cycle whose batch is empty after the threshold filter and the
cooldown engine finishes without touching the notify-state map, without
persisting, without notifying and without error. -/
theorem empty_batch_noop (config : MonitorConfig) (pools : List Pool)
    (webhookOk : Bool) (st : NotifyMap) (now notifyTime : ℚ)
    (hempty : applyCooldown config st now
      (pools.filter («matches» config)) = []) :
    (runOnce config false (some pools) webhookOk st now notifyTime).state =
      st ∧
    (runOnce config false (some pools) webhookOk st now
        notifyTime).didPersist = false ∧
    (runOnce config false (some pools) webhookOk st now
        notifyTime).didNotify = false ∧
    (runOnce config false (some pools) webhookOk st now
        notifyTime).errored = false := by
  simp [runOnce, hempty]

/-- C8 witness: the empty-batch frame condition on a concrete cycle with an
empty fetch result and a non-empty prior store. -/
theorem empty_batch_noop_witness :
    (runOnce sampleConfig false (some []) true [("0xab", ⟨1, 2⟩)] 0
        100).state = [("0xab", ⟨1, 2⟩)] ∧
    (runOnce sampleConfig false (some []) true [("0xab", ⟨1, 2⟩)] 0
        100).didPersist = false ∧
    (runOnce sampleConfig false (some []) true [("0xab", ⟨1, 2⟩)] 0
        100).didNotify = false ∧
    (runOnce sampleConfig false (some []) true [("0xab", ⟨1, 2⟩)] 0
        100).errored = false :=
  empty_batch_noop sampleConfig [] true [("0xab", ⟨1, 2⟩)] 0 100 rfl

end KyberWatch
